import Mathlib

/- Verification development for the sector rotation analysis engine
   (analysis.py, config.py, and the trend replayer of streamlit_app.py).

   Modelling conventions: Python floats are modelled as rationals; every
   constant of the program is an exact decimal, and no claim under study
   depends on rounding, NaN or infinity behaviour of IEEE floats. Pandas
   series are modelled as Lean lists, a missing value (an indicator
   warm-up NaN) as Option, a Python dict of string keys as an association
   list looked up at its first binding, and a raised exception as the
   error case of Except. -/

namespace SectorRotation

/-- A Python dict of string keys and float values (weights, thresholds),
modelled as an association list; lookup returns the first binding. -/
abbrev WeightDict := List (String × ℚ)

/-- Python dict.get with a default value. -/
def getW (w : WeightDict) (k : String) (d : ℚ) : ℚ :=
  match w.lookup k with
  | some v => v
  | none => d

/-- Python sum(weights.values()). -/
def totalW (w : WeightDict) : ℚ := (w.map Prod.snd).sum

/-- Componentwise scaling of a weight mapping. -/
def scaleW (c : ℚ) (w : WeightDict) : WeightDict := w.map (fun p => (p.1, c * p.2))

/-- DEFAULT_MOMENTUM_WEIGHTS from config.py. -/
def DEFAULT_MOMENTUM_WEIGHTS : WeightDict :=
  [("ADX_Z", 20), ("RS_Rating", 40), ("RSI", 30), ("DI_Spread", 10)]

/-- DEFAULT_REVERSAL_WEIGHTS from config.py. -/
def DEFAULT_REVERSAL_WEIGHTS : WeightDict :=
  [("RS_Rating", 40), ("CMF", 40), ("RSI", 10), ("ADX_Z", 10)]

/-- REVERSAL_BUY_DIV RSI threshold from config.py. -/
def REVERSAL_BUY_DIV_RSI : ℚ := 40

/-- REVERSAL_BUY_DIV ADX_Z threshold from config.py. -/
def REVERSAL_BUY_DIV_ADX_Z : ℚ := -(1/2)

/-- REVERSAL_BUY_DIV CMF threshold from config.py. -/
def REVERSAL_BUY_DIV_CMF : ℚ := 1/10

/-- REVERSAL_WATCH RSI threshold from config.py. -/
def REVERSAL_WATCH_RSI : ℚ := 50

/-- REVERSAL_WATCH ADX_Z threshold from config.py. -/
def REVERSAL_WATCH_ADX_Z : ℚ := 1/2

/-- REVERSAL_WATCH CMF threshold from config.py. -/
def REVERSAL_WATCH_CMF : ℚ := 0

/-- One OHLCV bar of a PriceSeries, stamped with its abstract timestamp. -/
structure Bar where
  t : ℕ
  opn : ℚ
  high : ℚ
  low : ℚ
  close : ℚ
  volume : ℚ
deriving Repr, DecidableEq

/-- A pandas DataFrame as supplied by the data-fetch collaborator: either a
well-formed OHLCV frame, or a malformed frame (missing or non-numeric
columns) of a given row count, on which any column access raises. -/
inductive Frame
  | ok : List Bar → Frame
  | malformed : ℕ → Frame
deriving Repr, DecidableEq

/-- Python len(df), defined for well-formed and malformed frames alike. -/
def flen : Frame → ℕ
  | .ok bs => bs.length
  | .malformed n => n

/-- Access to the Close column; raises on a malformed frame. -/
def closes : Frame → Except Unit (List ℚ)
  | .ok bs => .ok (bs.map Bar.close)
  | .malformed _ => .error ()

/-- Access to the Close column together with its timestamp index. -/
def closesT : Frame → Except Unit (List (ℕ × ℚ))
  | .ok bs => .ok (bs.map (fun b => (b.t, b.close)))
  | .malformed _ => .error ()

/-- Series.pct_change().dropna() on a timestamp-indexed Close column: the
return at each bar after the first is (close - prev)/prev, keyed by the
timestamp of the later bar. A zero previous close yields an infinity in
pandas; the rational model returns 0 there, a case no claim depends on. -/
def pctChangeDropna : List (ℕ × ℚ) → List (ℕ × ℚ)
  | (_, c0) :: (t1, c1) :: rest => (t1, (c1 - c0) / c0) :: pctChangeDropna ((t1, c1) :: rest)
  | _ => []

/-- calculate_relative_strength from analysis.py, lines 14..41. The pd.isna
guards on the two cumulative products never fire in the rational model. -/
def calculate_relative_strength (sector_returns benchmark_returns : List ℚ) : ℚ :=
  if sector_returns.length < 2 ∨ benchmark_returns.length < 2 then 5
  else
    let sector_cumret := (sector_returns.map (fun r => 1 + r)).prod - 1
    let benchmark_cumret := (benchmark_returns.map (fun r => 1 + r)).prod - 1
    let relative_perf := sector_cumret - benchmark_cumret
    max 0 (min 10 (5 + relative_perf * 25))

/-- Lookup of the value a timestamp-indexed series stores at a timestamp. -/
def valueAt (t : ℕ) (xs : List (ℕ × ℚ)) : Option ℚ := xs.lookup t

/-- Lines 90..96 of analysis.py: intersect the timestamp indexes of the two
return series, restrict both series to the common timestamps, and rate;
with no common timestamp the neutral 5.0 is returned. Under the
PriceSeries invariant timestamps are unique, so loc is a first-binding
lookup. -/
def alignAndRate (sret bret : List (ℕ × ℚ)) : ℚ :=
  let common := (sret.map Prod.fst).filter (fun t => (bret.map Prod.fst).contains t)
  if common.length > 0 then
    calculate_relative_strength
      (common.filterMap (fun t => valueAt t sret))
      (common.filterMap (fun t => valueAt t bret))
  else 5

/-- Lines 85..98 of analysis.py: the RS_Rating branch of analyze_sector;
raises when the Close column of a malformed frame is accessed. -/
def rsRatingOf (data : Frame) (benchmark_data : Option Frame) : Except Unit ℚ :=
  match benchmark_data with
  | some b =>
    if flen b > 0 then do
      let sc ← closesT data
      let bc ← closesT b
      pure (alignAndRate (pctChangeDropna sc) (pctChangeDropna bc))
    else pure 5
  | none => pure 5

/-- calculate_reversal_score from analysis.py, lines 138..167: the absolute
(non-rank) reversal score. A zero total weight raises ZeroDivisionError in
Python, modelled as the error case. -/
def calculate_reversal_score (rsi adx_z cmf rs_rating : ℚ) (weights : WeightDict) :
    Except Unit ℚ :=
  let rsi_normalized := (100 - rsi) / 10
  let adx_z_normalized := max 0 (-adx_z) * 2
  let cmf_normalized := (cmf + 1) * 5
  let rs_rating_normalized := 10 - rs_rating
  let total_weight := totalW weights
  if total_weight = 0 then .error () else
    .ok (rsi_normalized * getW weights "RSI" 10 / total_weight * 100 +
      adx_z_normalized * getW weights "ADX_Z" 10 / total_weight * 100 +
      cmf_normalized * getW weights "CMF" 40 / total_weight * 100 +
      rs_rating_normalized * getW weights "RS_Rating" 40 / total_weight * 100)

/-- Lines 184..190 of analysis.py: the user-threshold filter at the top of
determine_reversal_status. The optional dict argument mirrors Python
truthiness: none models None, some [] an empty dict, and both skip the
filter. -/
def pre_filter_blocks (rsi adx_z : ℚ) : Option WeightDict → Bool
  | some thr =>
    !thr.isEmpty &&
      !(decide (rsi < getW thr "RSI" 40) && decide (adx_z < getW thr "ADX_Z" 0))
  | none => false

/-- determine_reversal_status from analysis.py, lines 170..202, with the
fixed tier constants of config.py. -/
def determine_reversal_status (rsi adx_z cmf : ℚ)
    (reversal_thresholds : Option WeightDict) : String :=
  if pre_filter_blocks rsi adx_z reversal_thresholds then "No"
  else if rsi < REVERSAL_BUY_DIV_RSI ∧ adx_z < REVERSAL_BUY_DIV_ADX_Z ∧
      cmf > REVERSAL_BUY_DIV_CMF then "BUY_DIV"
  else if rsi < REVERSAL_WATCH_RSI ∧ adx_z < REVERSAL_WATCH_ADX_Z ∧
      cmf > REVERSAL_WATCH_CMF then "Watch"
  else "No"

/-- pandas Series.rank with ascending=True and the min method: the
competition rank of a value within a column, 1 plus the number of strictly
smaller entries; tied entries therefore share the rank of the first slot
their group occupies in ascending order. -/
def rank_asc (v : ℚ) (col : List ℚ) : ℚ :=
  1 + (col.countP (fun y => decide (y < v)) : ℕ)

/-- pandas Series.rank with ascending=False and the min method: 1 plus the
number of strictly larger entries. -/
def rank_desc (v : ℚ) (col : List ℚ) : ℚ :=
  1 + (col.countP (fun y => decide (v < y)) : ℕ)

/-- One row of the results table assembled by analyze_sector, lines 116..131
of analysis.py: the keys of the returned dict, in order. -/
structure EntityRow where
  sector : String
  symbol : String
  price : ℚ
  change_pct : ℚ
  rsi : ℚ
  adx : ℚ
  adx_z : ℚ
  di_spread : ℚ
  cmf : ℚ
  mansfield_rs : ℚ
  rs_rating : ℚ
  momentum_score : ℚ
  reversal_score : ℚ
  reversal_status : String
deriving Repr, DecidableEq

/-- Lines 252..257 of analysis.py: the composite momentum score of one row
with indicator values a, rr, ri, d, from its ascending competition ranks
within the four indicator columns of the batch, weighted literally by
weight over 100. -/
def momentum_of (mw : WeightDict) (colA colR colI colD : List ℚ) (a rr ri d : ℚ) : ℚ :=
  rank_asc a colA * getW mw "ADX_Z" 20 / 100 +
  rank_asc rr colR * getW mw "RS_Rating" 40 / 100 +
  rank_asc ri colI * getW mw "RSI" 30 / 100 +
  rank_asc d colD * getW mw "DI_Spread" 10 / 100

/-- Lines 267..287 of analysis.py: the rank-based reversal score of one
eligible row, ranked within the eligible columns. A truthy weight dict
combines the ranks as rank times weight over total weight times 100; a
falsy one (None or an empty dict) uses the hard-coded 0.40/0.40/0.10/0.10
split. -/
def reversal_ranked_of (rw : Option WeightDict) (ecolR ecolC ecolI ecolA : List ℚ)
    (r : EntityRow) : ℚ :=
  let rr := rank_asc r.rs_rating ecolR
  let rc := rank_desc r.cmf ecolC
  let ri := rank_asc r.rsi ecolI
  let ra := rank_asc r.adx_z ecolA
  match rw with
  | some w =>
    if w ≠ [] then
      let total_weight := totalW w
      rr * getW w "RS_Rating" 40 / total_weight * 100 +
      rc * getW w "CMF" 40 / total_weight * 100 +
      ri * getW w "RSI" 10 / total_weight * 100 +
      ra * getW w "ADX_Z" 10 / total_weight * 100
    else
      rr * (0.40 : ℚ) * 100 + rc * (0.40 : ℚ) * 100 +
      ri * (0.10 : ℚ) * 100 + ra * (0.10 : ℚ) * 100
  | none =>
    rr * (0.40 : ℚ) * 100 + rc * (0.40 : ℚ) * 100 +
    ri * (0.10 : ℚ) * 100 + ra * (0.10 : ℚ) * 100

/-- Lines 240..295 of analysis.py: the cross-sectional scoring stage of
analyze_all_sectors, applied to the collected per-entity rows. Momentum
ranks run over the full batch and overwrite every Momentum_Score; the
rank-based reversal overwrite touches exactly the rows whose status is not
No, ranked within that eligible subset. -/
def score_stage (mw : WeightDict) (rw : Option WeightDict)
    (rows : List EntityRow) : List EntityRow :=
  let colA := rows.map EntityRow.adx_z
  let colR := rows.map EntityRow.rs_rating
  let colI := rows.map EntityRow.rsi
  let colD := rows.map EntityRow.di_spread
  let scored := rows.map (fun r =>
    { r with momentum_score := momentum_of mw colA colR colI colD r.adx_z r.rs_rating r.rsi r.di_spread })
  let eligible := scored.filter (fun r => r.reversal_status != "No")
  let ecolR := eligible.map EntityRow.rs_rating
  let ecolC := eligible.map EntityRow.cmf
  let ecolI := eligible.map EntityRow.rsi
  let ecolA := eligible.map EntityRow.adx_z
  scored.map (fun r =>
    if r.reversal_status ≠ "No" then
      { r with reversal_score := reversal_ranked_of rw ecolR ecolC ecolI ecolA r }
    else r)

/-- The four series returned by calculate_adx. -/
structure AdxResult where
  adx : List (Option ℚ)
  plus_di : List (Option ℚ)
  minus_di : List (Option ℚ)
  di_spread : List (Option ℚ)

/-- The indicator library of indicators.py, a module this repository imports
but whose file is not under src/. analyze_sector consumes it only through
this interface, and the theorems below hold for every implementation. Per
the spec (section 4.1) the functions return derived series whose warm-up
entries are undefined (modelled as none) and raise on malformed input;
both behaviours fit this type. -/
structure IndicatorSuite where
  calc_rsi : Frame → Except Unit (List (Option ℚ))
  calc_adx : Frame → Except Unit AdxResult
  calc_cmf : Frame → Except Unit (List (Option ℚ))
  calc_z_score : List ℚ → Except Unit ℚ
  calc_mansfield : Frame → Option Frame → String → Except Unit ℚ

/-- Series.iloc[-1] guarded by isna().all() with a neutral default, the
pattern of lines 73..76 of analysis.py. A defined last entry is returned
as is; an all-undefined (or empty) series yields the default. A nonempty
series whose last entry alone is undefined propagates a NaN in pandas, a
case outside this NaN-free model and unused by every claim; it falls to
the default here. -/
def last_or (d : ℚ) (s : List (Option ℚ)) : ℚ :=
  if s.all (fun o => o.isNone) then d
  else match s.getLast? with
    | some (some v) => v
    | _ => d

/-- Series.dropna on a derived indicator series. -/
def dropna (s : List (Option ℚ)) : List ℚ := s.filterMap id

/-- Python truthiness of the optional symbol string of analyze_sector,
line 118: None and the empty string fall back to N/A. -/
def symbol_or_na : Option String → String
  | some s => if s ≠ "" then s else "N/A"
  | none => "N/A"

/-- Line 112 of analysis.py: the latest close, 0.0 on an empty frame; the
column access raises on a malformed frame of positive length. -/
def price_of (data : Frame) : Except Unit ℚ :=
  if flen data > 0 then do
    let cs ← closes data
    pure (cs.getLast?.getD 0)
  else pure 0

/-- Line 113 of analysis.py: the previous close, falling back to the
current price on a single-row frame. -/
def prev_close_of (data : Frame) (current : ℚ) : Except Unit ℚ :=
  if flen data > 1 then do
    let cs ← closes data
    pure ((cs.reverse.drop 1).headD current)
  else pure current

/-- The body of the try block of analyze_sector (lines 66..131 of
analysis.py) as an error-propagating computation: any raise inside
surfaces as the error case. The momentum_weights argument is defaulted by
the source (lines 61..62) but never read afterwards; the placeholder 0 is
stored in its place, to be overwritten by the batch scorer. -/
def analyze_sector_core (S : IndicatorSuite) (name : String) (data : Frame)
    (benchmark_data : Option Frame) (momentum_weights : Option WeightDict)
    (reversal_weights : Option WeightDict) (symbol : Option String)
    (interval : String) (reversal_thresholds : Option WeightDict) :
    Except Unit EntityRow := do
  let _mw := momentum_weights.getD DEFAULT_MOMENTUM_WEIGHTS
  let rw := reversal_weights.getD DEFAULT_REVERSAL_WEIGHTS
  let rsi_series ← S.calc_rsi data
  let adx_res ← S.calc_adx data
  let cmf_series ← S.calc_cmf data
  let latest_rsi := last_or 50 rsi_series
  let latest_adx := last_or 0 adx_res.adx
  let latest_di_spread := last_or 0 adx_res.di_spread
  let latest_cmf := last_or 0 cmf_series
  let adx_z_score ← S.calc_z_score (dropna adx_res.adx)
  let mansfield_rs ← S.calc_mansfield data benchmark_data interval
  let rs_rating ← rsRatingOf data benchmark_data
  let momentum_score : ℚ := 0
  let reversal_score ← calculate_reversal_score latest_rsi adx_z_score latest_cmf rs_rating rw
  let reversal_status := determine_reversal_status latest_rsi adx_z_score latest_cmf reversal_thresholds
  let current_price ← price_of data
  let prev_close ← prev_close_of data current_price
  let pct_change := if prev_close ≠ 0 then (current_price - prev_close) / prev_close * 100 else 0
  pure {
    sector := name
    symbol := symbol_or_na symbol
    price := current_price
    change_pct := pct_change
    rsi := latest_rsi
    adx := latest_adx
    adx_z := adx_z_score
    di_spread := latest_di_spread
    cmf := latest_cmf
    mansfield_rs := mansfield_rs
    rs_rating := rs_rating
    momentum_score := momentum_score
    reversal_score := reversal_score
    reversal_status := reversal_status }

/-- analyze_sector from analysis.py, lines 44..135: the try/except boundary
around the whole body, every error inside mapped to the no-result marker. -/
def analyze_sector (S : IndicatorSuite) (name : String) (data : Frame)
    (benchmark_data : Option Frame) (momentum_weights : Option WeightDict)
    (reversal_weights : Option WeightDict) (symbol : Option String)
    (interval : String) (reversal_thresholds : Option WeightDict) :
    Option EntityRow :=
  (analyze_sector_core S name data benchmark_data momentum_weights
    reversal_weights symbol interval reversal_thresholds).toOption

/-- Line 232 of analysis.py: the symbol passed down for one sector name, a
string in every case. -/
def symbol_for (symbols : Option (List (String × String))) (name : String) : String :=
  match symbols with
  | some sd => if sd.isEmpty then "N/A" else (sd.lookup name).getD "N/A"
  | none => "N/A"

/-- analyze_all_sectors from analysis.py, lines 205..295: the benchmark key
Nifty 50 is skipped, each remaining entity is analyzed in isolation, and
the collected rows are scored cross-sectionally; an empty collection is
the hard failure None. A returned row is a nonempty Python dict, hence
truthy, so collecting on truthiness keeps exactly the successes. -/
def analyze_all_sectors (S : IndicatorSuite) (sector_data : List (String × Frame))
    (benchmark_data : Option Frame) (momentum_weights : Option WeightDict)
    (reversal_weights : Option WeightDict) (symbols : Option (List (String × String)))
    (interval : String) (reversal_thresholds : Option WeightDict) :
    Option (List EntityRow) :=
  let mw := momentum_weights.getD DEFAULT_MOMENTUM_WEIGHTS
  let results := sector_data.filterMap (fun p =>
    if p.1 = "Nifty 50" then none
    else analyze_sector S p.1 p.2 benchmark_data (some mw) reversal_weights
      (some (symbol_for symbols p.1)) interval reversal_thresholds)
  if results.isEmpty then none
  else some (score_stage mw reversal_weights results)

/-- One entry of period_results in calculate_sector_trend, lines 544..554 of
streamlit_app.py: the indicator snapshot of one sector at one historical
point, computed from the PriceSeries truncated to that point by the same
indicator and RS_Rating computations analyze_sector runs. -/
structure TrendSnap where
  sector : String
  adx_z : ℚ
  rs_rating : ℚ
  rsi : ℚ
  di_spread : ℚ
  mansfield_rs : ℚ
  adx : ℚ
  cmf : ℚ
deriving Repr, DecidableEq

/-- Minimum of a nonempty rational list, 0 on the empty list. -/
def list_min : List ℚ → ℚ
  | [] => 0
  | h :: t => t.foldl min h

/-- Maximum of a nonempty rational list, 0 on the empty list. -/
def list_max : List ℚ → ℚ
  | [] => 0
  | h :: t => t.foldl max h

/-- Lines 563..575 of streamlit_app.py: the weighted average of descending
competition ranks under the hard-coded 0.20/0.40/0.30/0.10 weights. -/
def weighted_avg_rank (colA colR colI colD : List ℚ) (r : TrendSnap) : ℚ :=
  rank_desc r.adx_z colA * (0.20 : ℚ) +
  rank_desc r.rs_rating colR * (0.40 : ℚ) +
  rank_desc r.rsi colI * (0.30 : ℚ) +
  rank_desc r.di_spread colD * (0.10 : ℚ)

/-- Lines 559..586 of streamlit_app.py: the Momentum_Score column the trend
replayer attaches to the rows of one historical point, positionally
aligned with the given rows. Descending ranks are averaged under the fixed
weights and min-max rescaled onto the interval from 1 to 10, with 10 the
best; a single row or an all-tied column of averages yields 5.0. -/
def trend_momentum_scores (rows : List TrendSnap) : List ℚ :=
  let colA := rows.map TrendSnap.adx_z
  let colR := rows.map TrendSnap.rs_rating
  let colI := rows.map TrendSnap.rsi
  let colD := rows.map TrendSnap.di_spread
  let war := rows.map (weighted_avg_rank colA colR colI colD)
  if rows.length > 1 then
    let mn := list_min war
    let mx := list_max war
    if mn < mx then war.map (fun x => 10 - (x - mn) / (mx - mn) * 9)
    else war.map (fun _ => 5)
  else war.map (fun _ => 5)

/-- The Momentum_Score column the cross-sectional scorer of
analyze_all_sectors (lines 245..257 of analysis.py) attaches to the same
per-point rows, with the default momentum weights a from-scratch run uses.
Both pipelines derive the four indicator columns of a historical point
from the identically truncated PriceSeries by the same indicator calls, so
a comparison of the two reported scores is a comparison of these two
scoring stages on a shared snapshot. -/
def scorer_momentum_scores (rows : List TrendSnap) : List ℚ :=
  let colA := rows.map TrendSnap.adx_z
  let colR := rows.map TrendSnap.rs_rating
  let colI := rows.map TrendSnap.rsi
  let colD := rows.map TrendSnap.di_spread
  rows.map (fun r =>
    momentum_of DEFAULT_MOMENTUM_WEIGHTS colA colR colI colD r.adx_z r.rs_rating r.rsi r.di_spread)

/-- Ascending sort of a column, used to state the competition-rank pattern:
the rank pandas assigns is the 1-based position of the first slot the
value occupies in the ascending arrangement. -/
def sortedAsc (l : List ℚ) : List ℚ := l.mergeSort (fun a b => decide (a ≤ b))

/-- A concrete indicator suite instantiating the suite-generic theorems in
their witnesses: on a well-formed frame every derived series consists of
warm-up missing values and the scalar indicators are neutral, exactly the
behaviour the spec assigns to the real indicator library on histories
shorter than the indicator periods; on a malformed frame every function
raises, as the spec prescribes for malformed input. -/
def sampleSuite : IndicatorSuite where
  calc_rsi f := do
    let cs ← closes f
    pure (cs.map (fun _ => none))
  calc_adx f := do
    let cs ← closes f
    pure ⟨cs.map (fun _ => none), cs.map (fun _ => none),
      cs.map (fun _ => none), cs.map (fun _ => none)⟩
  calc_cmf f := do
    let cs ← closes f
    pure (cs.map (fun _ => none))
  calc_z_score _ := pure 0
  calc_mansfield f _ _ := do
    let _ ← closes f
    pure 0

/-- A Watch-eligible row used by concrete instantiations: its indicator
values satisfy the fixed Watch tier of determine_reversal_status. -/
def wrowA : EntityRow :=
  { sector := "A", symbol := "A1", price := 100, change_pct := 0,
    rsi := 30, adx := 0, adx_z := 0, di_spread := 0, cmf := 1/20,
    mansfield_rs := 0, rs_rating := 5, momentum_score := 0,
    reversal_score := 7, reversal_status := "Watch" }

/-- A second eligible row, identical to the first except for a higher RSI. -/
def wrowB : EntityRow := { wrowA with sector := "B", rsi := 40 }

/-- An ineligible row, status No, carrying its absolute reversal score 7. -/
def wrowNo : EntityRow := { wrowA with sector := "C", rsi := 60, reversal_status := "No" }

/-- A trend snapshot whose four ranked indicators are all 1. -/
def snapA : TrendSnap :=
  { sector := "A", adx_z := 1, rs_rating := 1, rsi := 1, di_spread := 1,
    mansfield_rs := 0, adx := 0, cmf := 0 }

/-- A trend snapshot whose four ranked indicators are all 2. -/
def snapB : TrendSnap :=
  { sector := "B", adx_z := 2, rs_rating := 2, rsi := 2, di_spread := 2,
    mansfield_rs := 0, adx := 0, cmf := 0 }

/-- A two-bar well-formed frame for concrete runs of the analyzer. -/
def okFrameG : Frame :=
  Frame.ok [⟨1, 10, 10, 10, 10, 100⟩, ⟨2, 11, 11, 11, 11, 100⟩]

/-- Another two-bar well-formed frame. -/
def okFrameH : Frame :=
  Frame.ok [⟨1, 20, 20, 20, 20, 100⟩, ⟨2, 19, 19, 19, 19, 100⟩]

/-- The row the analyzer produces for the first concrete frame: neutral
indicators (two bars are short history for every indicator), RS rating 5
with no benchmark, the absolute reversal score 450 under default weights,
and the momentum placeholder 0. -/
def goodRow : EntityRow :=
  { sector := "Good", symbol := "N/A", price := 11, change_pct := 10, rsi := 50,
    adx := 0, adx_z := 0, di_spread := 0, cmf := 0, mansfield_rs := 0, rs_rating := 5,
    momentum_score := 0, reversal_score := 450, reversal_status := "No" }

/-- The analyzer row for the second concrete frame. -/
def hRow : EntityRow :=
  { sector := "H", symbol := "N/A", price := 19, change_pct := -5, rsi := 50,
    adx := 0, adx_z := 0, di_spread := 0, cmf := 0, mansfield_rs := 0, rs_rating := 5,
    momentum_score := 0, reversal_score := 450, reversal_status := "No" }

/-- The table analyze_all_sectors returns on the two concrete frames: both
rows tie on every ranked indicator, so each receives momentum 1. -/
def w8table : List EntityRow :=
  [{ goodRow with momentum_score := 1 }, { hRow with momentum_score := 1 }]

/-! Helper lemmas shared by the claim theorems. -/

theorem valueAt_isSome {t : ℕ} {xs : List (ℕ × ℚ)} (h : t ∈ xs.map Prod.fst) :
    (valueAt t xs).isSome := by
  induction xs with
  | nil => simp at h
  | cons p rest ih =>
    rcases p with ⟨k, v⟩
    by_cases hk : k = t
    · subst hk
      simp [valueAt, List.lookup]
    · have ht : t ∈ rest.map Prod.fst := by
        simp only [List.map_cons, List.mem_cons] at h
        rcases h with h | h
        · exact absurd h.symm hk
        · exact h
      have hr := ih ht
      have hbeq : (t == k) = false := by
        simp [Ne.symm hk]
      simp only [valueAt, List.lookup, hbeq] at hr ⊢
      exact hr

theorem length_filterMap_of_isSome {α β : Type} (f : α → Option β) (l : List α)
    (h : ∀ x ∈ l, (f x).isSome) : (l.filterMap f).length = l.length := by
  induction l with
  | nil => rfl
  | cons x rest ih =>
    rcases hx : f x with _ | y
    · exact absurd (h x (by simp)) (by simp [hx])
    · simp [List.filterMap_cons, hx, ih (fun z hz => h z (by simp [hz]))]

theorem crs_bounds (a b : List ℚ) :
    0 ≤ calculate_relative_strength a b ∧ calculate_relative_strength a b ≤ 10 := by
  unfold calculate_relative_strength
  split
  · norm_num
  · refine ⟨le_max_left 0 _, max_le (by norm_num) (min_le_left _ _)⟩

/-- Claim C9: a non-empty thresholds mapping that omits the ADX_Z key makes
the pre-filter default that threshold to 0.0 (and a missing RSI key to
40.0), so every entity with a non-negative ADX Z-score is classified No
whatever its other indicators, even Watch-satisfying ones; an empty
mapping behaves exactly like passing no thresholds at all. -/
theorem C9_threshold_defaults :
    (∀ (thr : WeightDict), thr ≠ [] → thr.lookup "ADX_Z" = none →
      ∀ rsi adx_z cmf : ℚ, 0 ≤ adx_z →
        determine_reversal_status rsi adx_z cmf (some thr) = "No") ∧
    (∀ (thr : WeightDict), thr ≠ [] → thr.lookup "RSI" = none →
      ∀ rsi adx_z cmf : ℚ, 40 ≤ rsi →
        determine_reversal_status rsi adx_z cmf (some thr) = "No") ∧
    (∀ rsi adx_z cmf : ℚ,
      determine_reversal_status rsi adx_z cmf (some []) =
        determine_reversal_status rsi adx_z cmf none) := by
  refine ⟨?_, ?_, ?_⟩
  · intro thr hne hlk rsi adx_z cmf hz
    have hemp : thr.isEmpty = false := by
      simp [List.isEmpty_iff, hne]
    have hblock : pre_filter_blocks rsi adx_z (some thr) = true := by
      simp [pre_filter_blocks, getW, hlk, hemp, not_lt.mpr hz]
    simp [determine_reversal_status, hblock]
  · intro thr hne hlk rsi adx_z cmf hr
    have hemp : thr.isEmpty = false := by
      simp [List.isEmpty_iff, hne]
    have hblock : pre_filter_blocks rsi adx_z (some thr) = true := by
      simp [pre_filter_blocks, getW, hlk, hemp, not_lt.mpr hr]
    simp [determine_reversal_status, hblock]
  · intro rsi adx_z cmf
    simp [determine_reversal_status, pre_filter_blocks]

/-- Witness for C9 at a concrete input: thresholds {RSI: 48} omit ADX_Z and
the entity satisfies the fixed Watch tier, yet it is classified No; the
same entity under an empty mapping is classified Watch. -/
theorem C9_threshold_defaults_witness :
    determine_reversal_status 45 (2/10) (1/20) (some [("RSI", 48)]) = "No" ∧
    determine_reversal_status 45 (2/10) (1/20) (some []) = "Watch" := by
  constructor
  · exact C9_threshold_defaults.1 [("RSI", 48)] (by simp) (by rfl) 45 (2/10) (1/20) (by norm_num)
  · rw [C9_threshold_defaults.2.2 45 (2/10) (1/20)]
    rw [determine_reversal_status]
    norm_num [pre_filter_blocks, REVERSAL_BUY_DIV_RSI, REVERSAL_BUY_DIV_ADX_Z,
      REVERSAL_BUY_DIV_CMF, REVERSAL_WATCH_RSI, REVERSAL_WATCH_ADX_Z, REVERSAL_WATCH_CMF]

/-- Claim C4: the relative-strength rating. With fewer than two
observations in either series the rating is the neutral 5; with at least
two aligned points it is the clamp onto [0,10] of 5 plus 25 times the
difference of the aligned cumulative returns, each the product of one plus
r minus one; with fewer than two aligned points it is 5; and in every
case the result lies in [0,10]. -/
theorem C4_rs_rating_spec :
    (∀ a b : List ℚ, a.length < 2 ∨ b.length < 2 → calculate_relative_strength a b = 5) ∧
    (∀ a b : List ℚ, 2 ≤ a.length → 2 ≤ b.length →
      calculate_relative_strength a b =
        max 0 (min 10 (5 + (((a.map (fun r => 1 + r)).prod - 1) -
          ((b.map (fun r => 1 + r)).prod - 1)) * 25))) ∧
    (∀ sret bret : List (ℕ × ℚ),
      ((sret.map Prod.fst).filter (fun t => (bret.map Prod.fst).contains t)).length < 2 →
      alignAndRate sret bret = 5) ∧
    (∀ sret bret : List (ℕ × ℚ),
      2 ≤ ((sret.map Prod.fst).filter (fun t => (bret.map Prod.fst).contains t)).length →
      alignAndRate sret bret =
        max 0 (min 10 (5 +
          (((((sret.map Prod.fst).filter (fun t => (bret.map Prod.fst).contains t)).filterMap
              (fun t => valueAt t sret)).map (fun r => 1 + r)).prod - 1 -
           (((((sret.map Prod.fst).filter (fun t => (bret.map Prod.fst).contains t)).filterMap
              (fun t => valueAt t bret)).map (fun r => 1 + r)).prod - 1)) * 25))) ∧
    (∀ sret bret : List (ℕ × ℚ),
      0 ≤ alignAndRate sret bret ∧ alignAndRate sret bret ≤ 10) := by
  have hshort : ∀ a b : List ℚ, a.length < 2 ∨ b.length < 2 →
      calculate_relative_strength a b = 5 := by
    intro a b h
    unfold calculate_relative_strength
    rw [if_pos h]
  have hlong : ∀ a b : List ℚ, 2 ≤ a.length → 2 ≤ b.length →
      calculate_relative_strength a b =
        max 0 (min 10 (5 + (((a.map (fun r => 1 + r)).prod - 1) -
          ((b.map (fun r => 1 + r)).prod - 1)) * 25)) := by
    intro a b ha hb
    unfold calculate_relative_strength
    rw [if_neg (by omega)]
  refine ⟨hshort, hlong, ?_, ?_, ?_⟩
  · intro sret bret h
    unfold alignAndRate
    by_cases hz :
        ((sret.map Prod.fst).filter (fun t => (bret.map Prod.fst).contains t)).length > 0
    · rw [if_pos hz]
      apply hshort
      left
      calc (((sret.map Prod.fst).filter (fun t => (bret.map Prod.fst).contains t)).filterMap
            (fun t => valueAt t sret)).length
          ≤ ((sret.map Prod.fst).filter (fun t => (bret.map Prod.fst).contains t)).length :=
            List.length_filterMap_le _ _
        _ < 2 := h
    · rw [if_neg hz]
  · intro sret bret h
    unfold alignAndRate
    rw [if_pos (by omega)]
    have hs : (((sret.map Prod.fst).filter (fun t => (bret.map Prod.fst).contains t)).filterMap
        (fun t => valueAt t sret)).length =
        ((sret.map Prod.fst).filter (fun t => (bret.map Prod.fst).contains t)).length := by
      apply length_filterMap_of_isSome
      intro t ht
      exact valueAt_isSome (List.mem_of_mem_filter ht)
    have hb : (((sret.map Prod.fst).filter (fun t => (bret.map Prod.fst).contains t)).filterMap
        (fun t => valueAt t bret)).length =
        ((sret.map Prod.fst).filter (fun t => (bret.map Prod.fst).contains t)).length := by
      apply length_filterMap_of_isSome
      intro t ht
      apply valueAt_isSome
      have hc := List.of_mem_filter ht
      simpa [List.contains, List.elem_iff] using hc
    exact hlong _ _ (by omega) (by omega)
  · intro sret bret
    unfold alignAndRate
    by_cases hz :
        ((sret.map Prod.fst).filter (fun t => (bret.map Prod.fst).contains t)).length > 0
    · rw [if_pos hz]
      exact crs_bounds _ _
    · rw [if_neg hz]
      norm_num

/-- Witness for C4 at concrete inputs: the two return series share the
timestamps 2 and 3, the aligned cumulative returns differ by 0.65, and
the unclamped rating 21.25 is clamped to 10; a one-point overlap gives the
neutral 5. -/
theorem C4_rs_rating_spec_witness :
    alignAndRate [(1, 1/10), (2, 1/10), (3, 1/2)] [(2, 0), (3, 0), (4, 1)] = 10 ∧
    alignAndRate [(1, 1/10)] [(1, 2/10)] = 5 := by
  constructor
  · have h := C4_rs_rating_spec.2.2.2.1 [(1, 1/10), (2, 1/10), (3, 1/2)]
      [(2, 0), (3, 0), (4, 1)] (by simp)
    rw [h]
    simp [valueAt, List.lookup]
    norm_num
  · have h := C4_rs_rating_spec.2.2.1 [(1, 1/10)] [(1, 2/10)] (by simp)
    rw [h]

/-- Claim C3, evaluated at the failing input: two eligible rows identical in
every indicator except that entity A (index 0) has the lower RSI, scored
under the default reversal weights whose RSI weight 10 is positive. The
code ranks RSI ascending with rank 1 at the lowest value and adds rank
times weight, so A receives the strictly smaller rank-based
Reversal_Score (100 against 110), refuting the claimed relation that A
scores at least B; the docstring of calculate_reversal_score (higher is
better for reversal potential) and the sibling replayer in
streamlit_app.py, which inverts these same ranks, require the opposite
orientation. -/
theorem C3_reversal_direction_eval :
    (score_stage DEFAULT_MOMENTUM_WEIGHTS (some DEFAULT_REVERSAL_WEIGHTS) [wrowA, wrowB]).map
      EntityRow.reversal_score = [100, 110] ∧
    ((score_stage DEFAULT_MOMENTUM_WEIGHTS (some DEFAULT_REVERSAL_WEIGHTS) [wrowA, wrowB]).map
      EntityRow.reversal_score).headD 0 <
      ((score_stage DEFAULT_MOMENTUM_WEIGHTS (some DEFAULT_REVERSAL_WEIGHTS) [wrowA, wrowB]).map
        EntityRow.reversal_score).getLastD 0 ∧
    wrowA.rsi < wrowB.rsi ∧ wrowA.reversal_status ≠ "No" ∧ wrowB.reversal_status ≠ "No" := by
  have hmap : (score_stage DEFAULT_MOMENTUM_WEIGHTS (some DEFAULT_REVERSAL_WEIGHTS)
      [wrowA, wrowB]).map EntityRow.reversal_score = [100, 110] := by
    simp [score_stage, momentum_of, reversal_ranked_of, rank_asc, rank_desc, wrowA, wrowB,
      DEFAULT_MOMENTUM_WEIGHTS, DEFAULT_REVERSAL_WEIGHTS, getW, totalW, List.lookup,
      List.countP, List.countP.go]
    norm_num
  refine ⟨hmap, ?_, ?_, ?_, ?_⟩
  · rw [hmap]
    norm_num
  · simp [wrowA, wrowB]
    norm_num
  · simp [wrowA]
  · simp [wrowA, wrowB]

/-- Claim C6, refuted at a concrete point: two sectors whose four ranked
indicator values are all 1 for sector A and all 2 for sector B. The trend
replayer reports the scores [1, 10] while the cross-sectional scorer on
the same snapshot with its default weights assigns [1, 2]; for sector B
the replayed score 10 is not the score 2 analyze_all_sectors would
assign. -/
theorem C6_trend_counterexample :
    trend_momentum_scores [snapA, snapB] = [1, 10] ∧
    scorer_momentum_scores [snapA, snapB] = [1, 2] ∧
    trend_momentum_scores [snapA, snapB] ≠ scorer_momentum_scores [snapA, snapB] := by
  have h1 : trend_momentum_scores [snapA, snapB] = [1, 10] := by
    simp [trend_momentum_scores, weighted_avg_rank, rank_desc, snapA, snapB, list_min,
      list_max, List.countP, List.countP.go]
    norm_num
  have h2 : scorer_momentum_scores [snapA, snapB] = [1, 2] := by
    simp [scorer_momentum_scores, momentum_of, rank_asc, snapA, snapB,
      DEFAULT_MOMENTUM_WEIGHTS, getW, totalW, List.lookup, List.countP, List.countP.go]
    norm_num
  refine ⟨h1, h2, ?_⟩
  rw [h1, h2]
  simp

theorem countP_trichotomy (v : ℚ) (l : List ℚ) :
    l.countP (fun y => decide (y < v)) + l.countP (fun y => decide (y = v)) +
      l.countP (fun y => decide (v < y)) = l.length := by
  induction l with
  | nil => rfl
  | cons h t ih =>
    simp only [List.countP_cons, List.length_cons]
    rcases lt_trichotomy h v with hc | hc | hc
    · simp [decide_eq_true hc, decide_eq_false hc.ne, decide_eq_false (lt_asymm hc)]
      omega
    · subst hc
      simp [decide_eq_false (lt_irrefl h)]
      omega
    · simp [decide_eq_false (lt_asymm hc), decide_eq_false hc.ne', decide_eq_true hc]
      omega

theorem countP_eq_one_of_nodup {v : ℚ} {l : List ℚ} (hnd : l.Nodup) (hv : v ∈ l) :
    l.countP (fun y => decide (y = v)) = 1 := by
  have h := List.count_eq_one_of_mem hnd hv
  rw [List.count] at h
  rw [← h]
  apply List.countP_congr
  intro y _
  simp [beq_iff_eq]

theorem rank_desc_flip {v : ℚ} {col : List ℚ} (hnd : col.Nodup) (hv : v ∈ col) :
    rank_desc v col = (col.length : ℚ) + 1 - rank_asc v col := by
  have htri := countP_trichotomy v col
  have hone := countP_eq_one_of_nodup hnd hv
  have hnat : col.countP (fun y => decide (y < v)) + 1 +
      col.countP (fun y => decide (v < y)) = col.length := by omega
  have hq : (col.countP (fun y => decide (y < v)) : ℚ) + 1 +
      (col.countP (fun y => decide (v < y)) : ℚ) = (col.length : ℚ) := by
    exact_mod_cast hnat
  unfold rank_asc rank_desc
  linarith

theorem foldl_min_map_sub (c : ℚ) (t : List ℚ) :
    ∀ h : ℚ, (t.map (fun x => c - x)).foldl min (c - h) = c - t.foldl max h := by
  induction t with
  | nil => intro h; rfl
  | cons x t ih =>
    intro h
    simp only [List.map_cons, List.foldl_cons]
    rw [min_sub_sub_left]
    exact ih (max h x)

theorem foldl_max_map_sub (c : ℚ) (t : List ℚ) :
    ∀ h : ℚ, (t.map (fun x => c - x)).foldl max (c - h) = c - t.foldl min h := by
  induction t with
  | nil => intro h; rfl
  | cons x t ih =>
    intro h
    simp only [List.map_cons, List.foldl_cons]
    rw [max_sub_sub_left]
    exact ih (min h x)

theorem list_min_map_sub (c : ℚ) (l : List ℚ) (hne : l ≠ []) :
    list_min (l.map (fun x => c - x)) = c - list_max l := by
  cases l with
  | nil => exact absurd rfl hne
  | cons h t =>
    simpa [list_min, list_max] using foldl_min_map_sub c t h

theorem list_max_map_sub (c : ℚ) (l : List ℚ) (hne : l ≠ []) :
    list_max (l.map (fun x => c - x)) = c - list_min l := by
  cases l with
  | nil => exact absurd rfl hne
  | cons h t =>
    simpa [list_min, list_max] using foldl_max_map_sub c t h

/-- Claim C6 amended: at a replayed historical point the trend replayer does
not report the Momentum_Score analyze_all_sectors would compute on the
identically truncated data; it reports that score min-max rescaled
affinely onto the interval from 1 to 10, the best composite score mapped
to 10 and the worst to 1. Stated for points with at least two sectors,
per-column distinct indicator values (which make the descending rank the
mirror of the ascending rank) and not all composite scores tied. -/
theorem C6_trend_is_rescaled_scorer (rows : List TrendSnap)
    (hlen : 1 < rows.length)
    (hA : (rows.map TrendSnap.adx_z).Nodup)
    (hR : (rows.map TrendSnap.rs_rating).Nodup)
    (hI : (rows.map TrendSnap.rsi).Nodup)
    (hD : (rows.map TrendSnap.di_spread).Nodup)
    (hs : list_min (scorer_momentum_scores rows) < list_max (scorer_momentum_scores rows)) :
    trend_momentum_scores rows =
      (scorer_momentum_scores rows).map (fun s =>
        10 - (list_max (scorer_momentum_scores rows) - s) /
          (list_max (scorer_momentum_scores rows) -
            list_min (scorer_momentum_scores rows)) * 9) := by
  have hg1 : getW DEFAULT_MOMENTUM_WEIGHTS "ADX_Z" 20 = 20 := by
    simp [getW, DEFAULT_MOMENTUM_WEIGHTS, List.lookup]
  have hg2 : getW DEFAULT_MOMENTUM_WEIGHTS "RS_Rating" 40 = 40 := by
    simp [getW, DEFAULT_MOMENTUM_WEIGHTS, List.lookup]
  have hg3 : getW DEFAULT_MOMENTUM_WEIGHTS "RSI" 30 = 30 := by
    simp [getW, DEFAULT_MOMENTUM_WEIGHTS, List.lookup]
  have hg4 : getW DEFAULT_MOMENTUM_WEIGHTS "DI_Spread" 10 = 10 := by
    simp [getW, DEFAULT_MOMENTUM_WEIGHTS, List.lookup]
  have key : ∀ r ∈ rows,
      weighted_avg_rank (rows.map TrendSnap.adx_z) (rows.map TrendSnap.rs_rating)
        (rows.map TrendSnap.rsi) (rows.map TrendSnap.di_spread) r =
      ((rows.length : ℚ) + 1) -
        momentum_of DEFAULT_MOMENTUM_WEIGHTS (rows.map TrendSnap.adx_z)
          (rows.map TrendSnap.rs_rating) (rows.map TrendSnap.rsi)
          (rows.map TrendSnap.di_spread) r.adx_z r.rs_rating r.rsi r.di_spread := by
    intro r hr
    have fA := rank_desc_flip hA (List.mem_map_of_mem TrendSnap.adx_z hr)
    have fR := rank_desc_flip hR (List.mem_map_of_mem TrendSnap.rs_rating hr)
    have fI := rank_desc_flip hI (List.mem_map_of_mem TrendSnap.rsi hr)
    have fD := rank_desc_flip hD (List.mem_map_of_mem TrendSnap.di_spread hr)
    rw [List.length_map] at fA fR fI fD
    unfold weighted_avg_rank momentum_of
    rw [fA, fR, fI, fD, hg1, hg2, hg3, hg4]
    ring
  have hwar : rows.map (weighted_avg_rank (rows.map TrendSnap.adx_z)
        (rows.map TrendSnap.rs_rating) (rows.map TrendSnap.rsi)
        (rows.map TrendSnap.di_spread)) =
      (scorer_momentum_scores rows).map (fun s => ((rows.length : ℚ) + 1) - s) := by
    rw [scorer_momentum_scores, List.map_map]
    apply List.map_congr_left
    intro r hr
    simpa using key r hr
  have hSlen : (scorer_momentum_scores rows).length = rows.length := by
    rw [scorer_momentum_scores]
    simp
  have hSne : scorer_momentum_scores rows ≠ [] := by
    intro hcon
    rw [hcon] at hSlen
    simp at hSlen
    omega
  have hmn : list_min (rows.map (weighted_avg_rank (rows.map TrendSnap.adx_z)
        (rows.map TrendSnap.rs_rating) (rows.map TrendSnap.rsi)
        (rows.map TrendSnap.di_spread))) =
      ((rows.length : ℚ) + 1) - list_max (scorer_momentum_scores rows) := by
    rw [hwar]
    exact list_min_map_sub _ _ hSne
  have hmx : list_max (rows.map (weighted_avg_rank (rows.map TrendSnap.adx_z)
        (rows.map TrendSnap.rs_rating) (rows.map TrendSnap.rsi)
        (rows.map TrendSnap.di_spread))) =
      ((rows.length : ℚ) + 1) - list_min (scorer_momentum_scores rows) := by
    rw [hwar]
    exact list_max_map_sub _ _ hSne
  simp only [trend_momentum_scores]
  rw [if_pos hlen, hmn, hmx, if_pos (by linarith), hwar, List.map_map]
  apply List.map_congr_left
  intro s _
  simp only [Function.comp_apply]
  have hd : list_max (scorer_momentum_scores rows) -
      list_min (scorer_momentum_scores rows) ≠ 0 := by linarith
  field_simp

/-- Witness for the amended C6 at the concrete two-sector point of the
counterexample: the replayed column equals the rescaled scorer column. -/
theorem C6_trend_is_rescaled_scorer_witness :
    trend_momentum_scores [snapA, snapB] =
      (scorer_momentum_scores [snapA, snapB]).map (fun s =>
        10 - (list_max (scorer_momentum_scores [snapA, snapB]) - s) /
          (list_max (scorer_momentum_scores [snapA, snapB]) -
            list_min (scorer_momentum_scores [snapA, snapB])) * 9) := by
  have hv : scorer_momentum_scores [snapA, snapB] = [1, 2] := by
    simp [scorer_momentum_scores, momentum_of, rank_asc, snapA, snapB,
      DEFAULT_MOMENTUM_WEIGHTS, getW, totalW, List.lookup, List.countP, List.countP.go]
    norm_num
  apply C6_trend_is_rescaled_scorer
  · norm_num
  · simp [snapA, snapB]
  · simp [snapA, snapB]
  · simp [snapA, snapB]
  · simp [snapA, snapB]
  · rw [hv]
    simp [list_min, list_max]

theorem sortedAsc_sorted (l : List ℚ) : (sortedAsc l).Sorted (· ≤ ·) := by
  have h := @List.sorted_mergeSort ℚ (fun a b : ℚ => decide (a ≤ b))
    (fun a b c hab hbc => by
      simp only [decide_eq_true_eq] at hab hbc ⊢
      exact le_trans hab hbc)
    (fun a b => by simpa using le_total a b) l
  exact h.imp (fun hab => by simpa using hab)

theorem sortedAsc_perm (l : List ℚ) : (sortedAsc l).Perm l :=
  List.mergeSort_perm l _

theorem indexOf_sorted_eq_countP (l : List ℚ) (hs : l.Sorted (· ≤ ·)) (v : ℚ)
    (hv : v ∈ l) : l.indexOf v = l.countP (fun y => decide (y < v)) := by
  induction l with
  | nil => simp at hv
  | cons h t ih =>
    rw [List.sorted_cons] at hs
    by_cases hh : h = v
    · subst hh
      have hz : t.countP (fun y => decide (y < h)) = 0 := by
        apply List.countP_eq_zero.mpr
        intro y hy
        simpa using not_lt.mpr (hs.1 y hy)
      simp [List.indexOf_cons_self, List.countP_cons, hz, lt_irrefl]
    · have hvt : v ∈ t := by
        rcases List.mem_cons.mp hv with h1 | h1
        · exact absurd h1.symm hh
        · exact h1
      have hlt : h < v := lt_of_le_of_ne (hs.1 v hvt) hh
      rw [List.indexOf_cons_ne _ hh, List.countP_cons]
      simp only [decide_eq_true hlt, if_pos]
      rw [ih hs.2 hvt]

theorem rank_asc_eq_sorted_pos (col : List ℚ) (v : ℚ) (hv : v ∈ col) :
    rank_asc v col = ((sortedAsc col).indexOf v : ℚ) + 1 := by
  have hperm := sortedAsc_perm col
  have hmem : v ∈ sortedAsc col := hperm.mem_iff.mpr hv
  have hidx := indexOf_sorted_eq_countP (sortedAsc col) (sortedAsc_sorted col) v hmem
  have hcnt : (sortedAsc col).countP (fun y => decide (y < v)) =
      col.countP (fun y => decide (y < v)) := hperm.countP_eq _
  unfold rank_asc
  rw [← hcnt, ← hidx]
  ring

/-- Claim C1: for a non-empty batch the cross-sectional scorer ranks each
entity on ADX_Z, RS_Rating, RSI and DI_Spread ascending with competition
ranks (the rank is 1 plus the 0-based position of the first slot of the
value in the ascending arrangement, so rank 1 is the lowest raw value and
tied entities share the minimum rank of their group) and sets
Momentum_Score to the sum over the four indicators of rank times weight
over 100, literally, without renormalizing by the weight sum. -/
theorem C1_momentum_formula (mw : WeightDict) (rw : Option WeightDict)
    (rows : List EntityRow) (hne : rows ≠ []) :
    (score_stage mw rw rows).length = rows.length ∧
    (∀ i (hi : i < rows.length) (ho : i < (score_stage mw rw rows).length),
      ((score_stage mw rw rows).get ⟨i, ho⟩).momentum_score =
        rank_asc (rows.get ⟨i, hi⟩).adx_z (rows.map EntityRow.adx_z) *
          getW mw "ADX_Z" 20 / 100 +
        rank_asc (rows.get ⟨i, hi⟩).rs_rating (rows.map EntityRow.rs_rating) *
          getW mw "RS_Rating" 40 / 100 +
        rank_asc (rows.get ⟨i, hi⟩).rsi (rows.map EntityRow.rsi) *
          getW mw "RSI" 30 / 100 +
        rank_asc (rows.get ⟨i, hi⟩).di_spread (rows.map EntityRow.di_spread) *
          getW mw "DI_Spread" 10 / 100) ∧
    (∀ col : List ℚ, ∀ v ∈ col,
      rank_asc v col = ((sortedAsc col).indexOf v : ℚ) + 1) := by
  refine ⟨by simp [score_stage], ?_, fun col v hv => rank_asc_eq_sorted_pos col v hv⟩
  intro i hi ho
  simp only [score_stage, List.get_eq_getElem, List.getElem_map]
  split <;> simp [momentum_of]

/-- Witness for C1 at a concrete two-row batch: the batch keeps its length,
and the rank of the higher RSI equals its sorted position. -/
theorem C1_momentum_formula_witness :
    (score_stage DEFAULT_MOMENTUM_WEIGHTS none [wrowA, wrowB]).length = 2 ∧
    rank_asc wrowB.rsi ([wrowA, wrowB].map EntityRow.rsi) =
      ((sortedAsc ([wrowA, wrowB].map EntityRow.rsi)).indexOf wrowB.rsi : ℚ) + 1 := by
  have h := C1_momentum_formula DEFAULT_MOMENTUM_WEIGHTS none [wrowA, wrowB] (by simp)
  exact ⟨by simpa using h.1, h.2.2 _ _ (by simp)⟩

theorem reversal_ranked_of_congr (rw : Option WeightDict) (a b c d : List ℚ)
    {r s : EntityRow} (h1 : r.rs_rating = s.rs_rating) (h2 : r.cmf = s.cmf)
    (h3 : r.rsi = s.rsi) (h4 : r.adx_z = s.adx_z) :
    reversal_ranked_of rw a b c d r = reversal_ranked_of rw a b c d s := by
  unfold reversal_ranked_of
  rw [h1, h2, h3, h4]

/-- Claim C2: the rank-based reversal overwrite touches exactly the
eligible rows. A row whose Reversal_Status is No keeps its absolute
Reversal_Score from the entity analyzer unchanged, and is never assigned a
rank-based score; an eligible row receives the rank-based score whose
ranks run within the eligible subset only. -/
theorem C2_reversal_eligibility (mw : WeightDict) (rw : Option WeightDict)
    (rows : List EntityRow) :
    (score_stage mw rw rows).length = rows.length ∧
    (∀ i (hi : i < rows.length) (ho : i < (score_stage mw rw rows).length),
      ((rows.get ⟨i, hi⟩).reversal_status = "No" →
        ((score_stage mw rw rows).get ⟨i, ho⟩).reversal_score =
          (rows.get ⟨i, hi⟩).reversal_score) ∧
      ((rows.get ⟨i, hi⟩).reversal_status ≠ "No" →
        ((score_stage mw rw rows).get ⟨i, ho⟩).reversal_score =
          reversal_ranked_of rw
            ((rows.filter (fun r => r.reversal_status != "No")).map EntityRow.rs_rating)
            ((rows.filter (fun r => r.reversal_status != "No")).map EntityRow.cmf)
            ((rows.filter (fun r => r.reversal_status != "No")).map EntityRow.rsi)
            ((rows.filter (fun r => r.reversal_status != "No")).map EntityRow.adx_z)
            (rows.get ⟨i, hi⟩))) := by
  refine ⟨by simp [score_stage], ?_⟩
  intro i hi ho
  constructor
  · intro hno
    simp only [List.get_eq_getElem] at hno
    simp [score_stage, List.get_eq_getElem, List.getElem_map, hno]
  · intro hyes
    simp only [List.get_eq_getElem] at hyes
    simp only [score_stage, List.get_eq_getElem, List.getElem_map, List.filter_map,
      List.map_map, Function.comp_def]
    rw [if_pos hyes]
    exact reversal_ranked_of_congr rw _ _ _ _ rfl rfl rfl rfl

/-- Witness for C2 at a concrete three-row batch whose third row is
ineligible: that row keeps its absolute reversal score 7. -/
theorem C2_reversal_eligibility_witness :
    ((score_stage DEFAULT_MOMENTUM_WEIGHTS (some DEFAULT_REVERSAL_WEIGHTS)
      [wrowA, wrowB, wrowNo]).get ⟨2, by simp [score_stage]⟩).reversal_score = 7 := by
  have h := (C2_reversal_eligibility DEFAULT_MOMENTUM_WEIGHTS
    (some DEFAULT_REVERSAL_WEIGHTS) [wrowA, wrowB, wrowNo]).2 2 (by norm_num)
    (by simp [score_stage])
  have h2 := h.1 (by simp [wrowNo, wrowA])
  simpa [wrowNo, wrowA] using h2

theorem lookup_scaleW (c : ℚ) (w : WeightDict) (k : String) :
    (scaleW c w).lookup k = (w.lookup k).map (fun v => c * v) := by
  induction w with
  | nil => rfl
  | cons p rest ih =>
    rcases p with ⟨k0, v0⟩
    by_cases hk : k == k0
    · simp [scaleW, List.lookup, hk]
    · simp only [Bool.not_eq_true] at hk
      simp [scaleW, List.lookup, hk]
      simpa [scaleW] using ih

theorem totalW_scaleW (c : ℚ) (w : WeightDict) : totalW (scaleW c w) = c * totalW w := by
  induction w with
  | nil => simp [totalW, scaleW]
  | cons p rest ih =>
    simp only [totalW, scaleW, List.map_cons, List.map_map, List.sum_cons] at ih ⊢
    rw [ih]
    ring

theorem getW_scaleW_of_isSome {c : ℚ} {w : WeightDict} {k : String} {d : ℚ} (d2 : ℚ)
    (h : (w.lookup k).isSome) : getW (scaleW c w) k d = c * getW w k d2 := by
  rcases ho : w.lookup k with _ | v
  · rw [ho] at h
    simp at h
  · simp [getW, lookup_scaleW, ho]

/-- Claim C5: scaling the reversal weight mapping componentwise by a
positive factor leaves the output of the cross-sectional scorer, and in
particular every rank-based Reversal_Score, unchanged: each contribution
is rank times weight over total weight times 100, and the factor cancels.
Stated for mappings binding all four indicator keys, as the WeightConfig
data model prescribes. -/
theorem C5_reversal_weight_scale_invariance (mw : WeightDict) (rows : List EntityRow)
    (w : WeightDict) (c : ℚ) (hc : 0 < c)
    (h1 : (w.lookup "RS_Rating").isSome) (h2 : (w.lookup "CMF").isSome)
    (h3 : (w.lookup "RSI").isSome) (h4 : (w.lookup "ADX_Z").isSome) :
    score_stage mw (some (scaleW c w)) rows = score_stage mw (some w) rows := by
  have hwne : w ≠ [] := by
    intro hcon
    rw [hcon] at h1
    simp at h1
  have hsne : scaleW c w ≠ [] := by
    intro hcon
    have hlen := congrArg List.length hcon
    simp only [scaleW, List.length_map, List.length_nil] at hlen
    exact hwne (List.length_eq_zero.mp hlen)
  have hpt : ∀ (a b d e : List ℚ) (r : EntityRow),
      reversal_ranked_of (some (scaleW c w)) a b d e r =
        reversal_ranked_of (some w) a b d e r := by
    intro a b d e r
    simp only [reversal_ranked_of]
    rw [if_pos hsne, if_pos hwne]
    rw [getW_scaleW_of_isSome 40 h1, getW_scaleW_of_isSome 40 h2,
      getW_scaleW_of_isSome 10 h3, getW_scaleW_of_isSome 10 h4, totalW_scaleW]
    by_cases hT : totalW w = 0
    · simp [hT]
    · field_simp
      ring
  simp only [score_stage]
  apply List.map_congr_left
  intro r _
  by_cases hst : r.reversal_status ≠ "No"
  · simp only [if_pos hst, hpt]
  · simp only [if_neg hst]

/-- Witness for C5: the default reversal weights scaled by 10 produce the
identical scored table on a concrete two-row batch. -/
theorem C5_reversal_weight_scale_invariance_witness :
    score_stage DEFAULT_MOMENTUM_WEIGHTS (some (scaleW 10 DEFAULT_REVERSAL_WEIGHTS))
      [wrowA, wrowB] =
    score_stage DEFAULT_MOMENTUM_WEIGHTS (some DEFAULT_REVERSAL_WEIGHTS)
      [wrowA, wrowB] := by
  apply C5_reversal_weight_scale_invariance
  · norm_num
  · rfl
  · rfl
  · rfl
  · rfl

theorem except_bind_ok {α β : Type} {x : Except Unit α} {f : α → Except Unit β} {b : β} :
    x >>= f = .ok b ↔ ∃ a, x = .ok a ∧ f a = .ok b := by
  cases x <;> simp [Bind.bind, Except.bind]

/-- Claim C10: analyze_sector is total at its public boundary. Its body is
the error-propagating core computation; the except clause maps every error
to the no-result marker none and every success to the completed record, so
no exception escapes to the caller for any input, malformed and empty
frames included. -/
theorem C10_analyze_sector_total (S : IndicatorSuite) (name : String) (data : Frame)
    (benchmark_data : Option Frame) (mw rw : Option WeightDict) (symbol : Option String)
    (interval : String) (thr : Option WeightDict) :
    (∀ e, analyze_sector_core S name data benchmark_data mw rw symbol interval thr = .error e →
      analyze_sector S name data benchmark_data mw rw symbol interval thr = none) ∧
    (∀ r, analyze_sector_core S name data benchmark_data mw rw symbol interval thr = .ok r →
      analyze_sector S name data benchmark_data mw rw symbol interval thr = some r) := by
  constructor
  · intro e he
    simp [analyze_sector, he, Except.toOption]
  · intro r hr
    simp [analyze_sector, hr, Except.toOption]

/-- Witness for C10: a malformed three-row frame raises inside the core and
analyze_sector returns none; a well-formed two-bar frame succeeds and the
complete record is returned. -/
theorem C10_analyze_sector_total_witness :
    analyze_sector sampleSuite "Bad" (Frame.malformed 3) none none none none "1d" none = none ∧
    analyze_sector sampleSuite "Good" okFrameG none none none none "1d" none = some goodRow := by
  constructor
  · exact (C10_analyze_sector_total sampleSuite "Bad" (Frame.malformed 3) none none none
      none "1d" none).1 () (by rfl)
  · apply (C10_analyze_sector_total sampleSuite "Good" okFrameG none none none
      none "1d" none).2
    simp [analyze_sector_core, sampleSuite, okFrameG, closes, closesT, flen, last_or, dropna,
      rsRatingOf, calculate_reversal_score, determine_reversal_status, pre_filter_blocks,
      DEFAULT_REVERSAL_WEIGHTS, getW, totalW, List.lookup, symbol_or_na, goodRow,
      price_of, prev_close_of,
      REVERSAL_BUY_DIV_RSI, REVERSAL_BUY_DIV_ADX_Z, REVERSAL_BUY_DIV_CMF,
      REVERSAL_WATCH_RSI, REVERSAL_WATCH_ADX_Z, REVERSAL_WATCH_CMF, pctChangeDropna,
      alignAndRate, Bind.bind, Except.bind, pure, Except.pure]
    norm_num

/-- Claim C7: analyze_all_sectors returns the hard failure none exactly when
zero entities produced a valid result, and a failing entity is excluded
alone: removing it from the batch leaves the output unchanged, so one
failure never aborts the batch. -/
theorem C7_batch_isolation (S : IndicatorSuite) (sector_data : List (String × Frame))
    (benchmark_data : Option Frame) (mw rw : Option WeightDict)
    (symbols : Option (List (String × String))) (interval : String)
    (thr : Option WeightDict) :
    (analyze_all_sectors S sector_data benchmark_data mw rw symbols interval thr = none ↔
      sector_data.filterMap (fun p =>
        if p.1 = "Nifty 50" then none
        else analyze_sector S p.1 p.2 benchmark_data
          (some (mw.getD DEFAULT_MOMENTUM_WEIGHTS)) rw
          (some (symbol_for symbols p.1)) interval thr) = []) ∧
    (∀ (pre post : List (String × Frame)) (name : String) (frame : Frame),
      analyze_sector S name frame benchmark_data
          (some (mw.getD DEFAULT_MOMENTUM_WEIGHTS)) rw
          (some (symbol_for symbols name)) interval thr = none →
      analyze_all_sectors S (pre ++ (name, frame) :: post) benchmark_data mw rw symbols
          interval thr =
        analyze_all_sectors S (pre ++ post) benchmark_data mw rw symbols interval thr) := by
  constructor
  · simp only [analyze_all_sectors]
    constructor
    · intro h
      by_cases hF : sector_data.filterMap (fun p =>
          if p.1 = "Nifty 50" then none
          else analyze_sector S p.1 p.2 benchmark_data
            (some (mw.getD DEFAULT_MOMENTUM_WEIGHTS)) rw
            (some (symbol_for symbols p.1)) interval thr) = []
      · exact hF
      · rw [if_neg (by simpa [List.isEmpty_iff] using hF)] at h
        cases h
    · intro h
      rw [h]
      rfl
  · intro pre post name frame hfail
    have hf : (fun p : String × Frame =>
        if p.1 = "Nifty 50" then none
        else analyze_sector S p.1 p.2 benchmark_data
          (some (mw.getD DEFAULT_MOMENTUM_WEIGHTS)) rw
          (some (symbol_for symbols p.1)) interval thr) (name, frame) = none := by
      by_cases hn : name = "Nifty 50"
      · simp [hn]
      · simpa [hn] using hfail
    simp only [analyze_all_sectors, List.filterMap_append, List.filterMap_cons, hf]

/-- Witness for C7: a batch of one valid and one malformed entity produces
the same output as the batch without the malformed entity, and a batch
whose only entity is malformed is the hard failure none. -/
theorem C7_batch_isolation_witness :
    analyze_all_sectors sampleSuite [("Good", okFrameG), ("Bad", Frame.malformed 3)] none
        none none none "1d" none =
      analyze_all_sectors sampleSuite [("Good", okFrameG)] none none none none "1d" none ∧
    analyze_all_sectors sampleSuite [("OnlyBad", Frame.malformed 2)] none none none none
      "1d" none = none := by
  constructor
  · have h := (C7_batch_isolation sampleSuite [] none none none none "1d" none).2
      [("Good", okFrameG)] [] "Bad" (Frame.malformed 3) (by rfl)
    simpa using h
  · exact (C7_batch_isolation sampleSuite [("OnlyBad", Frame.malformed 2)] none none none
      none "1d" none).1.mpr (by rfl)

theorem analyze_sector_some {S : IndicatorSuite} {name : String} {data : Frame}
    {benchmark_data : Option Frame} {mw rw : Option WeightDict} {symbol : Option String}
    {interval : String} {thr : Option WeightDict} {r : EntityRow}
    (h : analyze_sector S name data benchmark_data mw rw symbol interval thr = some r) :
    analyze_sector_core S name data benchmark_data mw rw symbol interval thr = .ok r := by
  unfold analyze_sector at h
  rcases hc : analyze_sector_core S name data benchmark_data mw rw symbol interval thr
    with e | v
  · rw [hc] at h
    simp [Except.toOption] at h
  · rw [hc] at h
    simp [Except.toOption] at h
    rw [h]

theorem analyze_sector_core_momentum_zero {S : IndicatorSuite} {name : String}
    {data : Frame} {benchmark_data : Option Frame} {mw rw : Option WeightDict}
    {symbol : Option String} {interval : String} {thr : Option WeightDict} {r : EntityRow}
    (h : analyze_sector_core S name data benchmark_data mw rw symbol interval thr = .ok r) :
    r.momentum_score = 0 := by
  unfold analyze_sector_core at h
  simp only [except_bind_ok] at h
  obtain ⟨a1, -, a2, -, a3, -, a4, -, a5, -, a6, -, a7, -, a8, -, a9, -, hfin⟩ := h
  simp only [pure, Except.pure, Except.ok.injEq] at hfin
  rw [← hfin]

theorem score_stage_get_momentum (mw : WeightDict) (rw : Option WeightDict)
    (rows : List EntityRow) (i : ℕ) (hi : i < rows.length)
    (ho : i < (score_stage mw rw rows).length) :
    ((score_stage mw rw rows).get ⟨i, ho⟩).momentum_score =
      momentum_of mw (rows.map EntityRow.adx_z) (rows.map EntityRow.rs_rating)
        (rows.map EntityRow.rsi) (rows.map EntityRow.di_spread)
        (rows.get ⟨i, hi⟩).adx_z (rows.get ⟨i, hi⟩).rs_rating (rows.get ⟨i, hi⟩).rsi
        (rows.get ⟨i, hi⟩).di_spread := by
  simp only [score_stage, List.get_eq_getElem, List.getElem_map]
  split <;> rfl

/-- Claim C8: every row of a successfully returned table carries the
Momentum_Score computed by the cross-sectional ranking over the full batch
of collected results; the placeholder 0 stored by the entity analyzer in
every collected result is never what the output reports, because the
scoring stage overwrites every row. -/
theorem C8_no_placeholder_reported (S : IndicatorSuite)
    (sector_data : List (String × Frame)) (benchmark_data : Option Frame)
    (mw rw : Option WeightDict) (symbols : Option (List (String × String)))
    (interval : String) (thr : Option WeightDict) (table : List EntityRow)
    (h : analyze_all_sectors S sector_data benchmark_data mw rw symbols interval thr =
      some table) :
    (∀ r ∈ sector_data.filterMap (fun p =>
        if p.1 = "Nifty 50" then none
        else analyze_sector S p.1 p.2 benchmark_data
          (some (mw.getD DEFAULT_MOMENTUM_WEIGHTS)) rw
          (some (symbol_for symbols p.1)) interval thr), r.momentum_score = 0) ∧
    table.length = (sector_data.filterMap (fun p =>
        if p.1 = "Nifty 50" then none
        else analyze_sector S p.1 p.2 benchmark_data
          (some (mw.getD DEFAULT_MOMENTUM_WEIGHTS)) rw
          (some (symbol_for symbols p.1)) interval thr)).length ∧
    (∀ i (hi : i < table.length) (hr : i < (sector_data.filterMap (fun p =>
        if p.1 = "Nifty 50" then none
        else analyze_sector S p.1 p.2 benchmark_data
          (some (mw.getD DEFAULT_MOMENTUM_WEIGHTS)) rw
          (some (symbol_for symbols p.1)) interval thr)).length),
      (table.get ⟨i, hi⟩).momentum_score =
        momentum_of (mw.getD DEFAULT_MOMENTUM_WEIGHTS)
          ((sector_data.filterMap (fun p =>
            if p.1 = "Nifty 50" then none
            else analyze_sector S p.1 p.2 benchmark_data
              (some (mw.getD DEFAULT_MOMENTUM_WEIGHTS)) rw
              (some (symbol_for symbols p.1)) interval thr)).map EntityRow.adx_z)
          ((sector_data.filterMap (fun p =>
            if p.1 = "Nifty 50" then none
            else analyze_sector S p.1 p.2 benchmark_data
              (some (mw.getD DEFAULT_MOMENTUM_WEIGHTS)) rw
              (some (symbol_for symbols p.1)) interval thr)).map EntityRow.rs_rating)
          ((sector_data.filterMap (fun p =>
            if p.1 = "Nifty 50" then none
            else analyze_sector S p.1 p.2 benchmark_data
              (some (mw.getD DEFAULT_MOMENTUM_WEIGHTS)) rw
              (some (symbol_for symbols p.1)) interval thr)).map EntityRow.rsi)
          ((sector_data.filterMap (fun p =>
            if p.1 = "Nifty 50" then none
            else analyze_sector S p.1 p.2 benchmark_data
              (some (mw.getD DEFAULT_MOMENTUM_WEIGHTS)) rw
              (some (symbol_for symbols p.1)) interval thr)).map EntityRow.di_spread)
          ((sector_data.filterMap (fun p =>
            if p.1 = "Nifty 50" then none
            else analyze_sector S p.1 p.2 benchmark_data
              (some (mw.getD DEFAULT_MOMENTUM_WEIGHTS)) rw
              (some (symbol_for symbols p.1)) interval thr)).get ⟨i, hr⟩).adx_z
          ((sector_data.filterMap (fun p =>
            if p.1 = "Nifty 50" then none
            else analyze_sector S p.1 p.2 benchmark_data
              (some (mw.getD DEFAULT_MOMENTUM_WEIGHTS)) rw
              (some (symbol_for symbols p.1)) interval thr)).get ⟨i, hr⟩).rs_rating
          ((sector_data.filterMap (fun p =>
            if p.1 = "Nifty 50" then none
            else analyze_sector S p.1 p.2 benchmark_data
              (some (mw.getD DEFAULT_MOMENTUM_WEIGHTS)) rw
              (some (symbol_for symbols p.1)) interval thr)).get ⟨i, hr⟩).rsi
          ((sector_data.filterMap (fun p =>
            if p.1 = "Nifty 50" then none
            else analyze_sector S p.1 p.2 benchmark_data
              (some (mw.getD DEFAULT_MOMENTUM_WEIGHTS)) rw
              (some (symbol_for symbols p.1)) interval thr)).get ⟨i, hr⟩).di_spread) := by
  have hzero : ∀ r ∈ sector_data.filterMap (fun p =>
      if p.1 = "Nifty 50" then none
      else analyze_sector S p.1 p.2 benchmark_data
        (some (mw.getD DEFAULT_MOMENTUM_WEIGHTS)) rw
        (some (symbol_for symbols p.1)) interval thr), r.momentum_score = 0 := by
    intro r hr
    obtain ⟨p, hp, hfp⟩ := List.mem_filterMap.mp hr
    by_cases hn : p.1 = "Nifty 50"
    · rw [if_pos hn] at hfp
      cases hfp
    · rw [if_neg hn] at hfp
      exact analyze_sector_core_momentum_zero (analyze_sector_some hfp)
  unfold analyze_all_sectors at h
  by_cases hF : (sector_data.filterMap (fun p =>
      if p.1 = "Nifty 50" then none
      else analyze_sector S p.1 p.2 benchmark_data
        (some (mw.getD DEFAULT_MOMENTUM_WEIGHTS)) rw
        (some (symbol_for symbols p.1)) interval thr)).isEmpty
  · rw [if_pos hF] at h
    cases h
  · rw [if_neg hF] at h
    have htab : score_stage (mw.getD DEFAULT_MOMENTUM_WEIGHTS) rw
        (sector_data.filterMap (fun p =>
          if p.1 = "Nifty 50" then none
          else analyze_sector S p.1 p.2 benchmark_data
            (some (mw.getD DEFAULT_MOMENTUM_WEIGHTS)) rw
            (some (symbol_for symbols p.1)) interval thr)) = table := by
      injection h
    subst htab
    refine ⟨hzero, by simp [score_stage], ?_⟩
    intro i hi hr
    exact score_stage_get_momentum _ _ _ i hr hi

/-- Witness for C8 on the concrete two-entity batch: the collected analyzer
results all carry the placeholder 0, and the returned table has their
length, its rows scored by the batch ranking. -/
theorem C8_no_placeholder_reported_witness :
    (∀ r ∈ [("Good", okFrameG), ("H", okFrameH)].filterMap (fun p =>
        if p.1 = "Nifty 50" then none
        else analyze_sector sampleSuite p.1 p.2 none (some DEFAULT_MOMENTUM_WEIGHTS) none
          (some (symbol_for none p.1)) "1d" none), r.momentum_score = 0) ∧
    w8table.length = ([("Good", okFrameG), ("H", okFrameH)].filterMap (fun p =>
        if p.1 = "Nifty 50" then none
        else analyze_sector sampleSuite p.1 p.2 none (some DEFAULT_MOMENTUM_WEIGHTS) none
          (some (symbol_for none p.1)) "1d" none)).length := by
  have hcoreG : analyze_sector_core sampleSuite "Good" okFrameG none
      (some DEFAULT_MOMENTUM_WEIGHTS) none (some "N/A") "1d" none = .ok goodRow := by
    simp [analyze_sector_core, sampleSuite, okFrameG, closes, closesT, flen, last_or,
      dropna, rsRatingOf, calculate_reversal_score, determine_reversal_status,
      pre_filter_blocks, DEFAULT_REVERSAL_WEIGHTS, getW, totalW, List.lookup,
      symbol_or_na, goodRow, price_of, prev_close_of,
      REVERSAL_BUY_DIV_RSI, REVERSAL_BUY_DIV_ADX_Z, REVERSAL_BUY_DIV_CMF,
      REVERSAL_WATCH_RSI, REVERSAL_WATCH_ADX_Z, REVERSAL_WATCH_CMF, pctChangeDropna,
      alignAndRate, Bind.bind, Except.bind, pure, Except.pure]
    norm_num
  have hcoreH : analyze_sector_core sampleSuite "H" okFrameH none
      (some DEFAULT_MOMENTUM_WEIGHTS) none (some "N/A") "1d" none = .ok hRow := by
    simp [analyze_sector_core, sampleSuite, okFrameH, closes, closesT, flen, last_or,
      dropna, rsRatingOf, calculate_reversal_score, determine_reversal_status,
      pre_filter_blocks, DEFAULT_REVERSAL_WEIGHTS, getW, totalW, List.lookup,
      symbol_or_na, hRow, price_of, prev_close_of,
      REVERSAL_BUY_DIV_RSI, REVERSAL_BUY_DIV_ADX_Z, REVERSAL_BUY_DIV_CMF,
      REVERSAL_WATCH_RSI, REVERSAL_WATCH_ADX_Z, REVERSAL_WATCH_CMF, pctChangeDropna,
      alignAndRate, Bind.bind, Except.bind, pure, Except.pure]
    norm_num
  have hg : analyze_sector sampleSuite "Good" okFrameG none
      (some DEFAULT_MOMENTUM_WEIGHTS) none (some "N/A") "1d" none = some goodRow := by
    simp [analyze_sector, hcoreG, Except.toOption]
  have hh : analyze_sector sampleSuite "H" okFrameH none
      (some DEFAULT_MOMENTUM_WEIGHTS) none (some "N/A") "1d" none = some hRow := by
    simp [analyze_sector, hcoreH, Except.toOption]
  have hscore : score_stage DEFAULT_MOMENTUM_WEIGHTS none [goodRow, hRow] = w8table := by
    simp [score_stage, momentum_of, reversal_ranked_of, rank_asc, rank_desc,
      DEFAULT_MOMENTUM_WEIGHTS, getW, totalW, List.lookup, List.countP, List.countP.go,
      w8table, goodRow, hRow]
    norm_num
  have hEq : analyze_all_sectors sampleSuite [("Good", okFrameG), ("H", okFrameH)] none
      none none none "1d" none = some w8table := by
    simp [analyze_all_sectors, symbol_for, hg, hh, hscore]
  have h := C8_no_placeholder_reported sampleSuite [("Good", okFrameG), ("H", okFrameH)]
    none none none none "1d" none w8table hEq
  exact ⟨h.1, h.2.1⟩

end SectorRotation
